import Mathlib

/-!
Verification of the SSA-generation pass of the Noir compiler front end
(crates/noirc_evaluator/src/ssa_refactor/ssa_gen/context.rs), via a shallow
embedding of the type flattener, operator lowering, lvalue resolver and
shared translation state into Lean.

Machine integers are modelled as Nat with explicit wrap-around where the Rust
code performs wrapping casts or overflow checks.  Rust panics (assert!,
unreachable!, expect) are modelled as Option.none; recoverable errors from the
builder layer do not occur in the fragments modelled here.
-/

namespace NoirSsaGen

/-- A value id in the IR: an opaque arena index (ir/value.rs). -/
abbrev ValueId := Nat

/-- A basic block id in the IR: an opaque arena index. -/
abbrev BlockId := Nat

/-- A surface local-variable id (noirc_frontend monomorphized ast LocalId). -/
abbrev LocalId := Nat

/-- A surface function id (noirc_frontend monomorphized ast FuncId). -/
abbrev FuncId := Nat

/-- An IR function id (ssa_refactor ir::function::FunctionId). -/
abbrev IrFunctionId := Nat

/-- Signedness of a surface integer type (noirc_frontend Signedness). -/
inductive Signedness where
  | signed
  | unsigned
deriving DecidableEq, Repr

/-- Modelled from the spec: the surface (monomorphized AST) type vocabulary.
The file noirc_frontend/src/monomorphization/ast.rs is not among the provided
sources; the variants are exactly those the spec lists for Surface Type and
that context.rs pattern-matches on: Field, Array(len, elem), Integer(sign,
bits), Bool, String(len), FmtString(len, captures), Unit, Tuple(fields),
Function, Slice(elem), MutableReference(elem). -/
inductive AstType where
  | field
  | array (len : Nat) (element : AstType)
  | integer (sign : Signedness) (bits : Nat)
  | bool
  | string (len : Nat)
  | fmtString (len : Nat) (fields : AstType)
  | unit
  | tuple (fields : List AstType)
  | function
  | slice (element : AstType)
  | mutableReference (element : AstType)
deriving Repr

/-- The IR numeric types (ir/types.rs NumericType). -/
inductive NumericType where
  | signed (bitSize : Nat)
  | unsigned (bitSize : Nat)
  | nativeField
deriving DecidableEq, Repr

/-- The IR types (ir/types.rs Type).  context.rs additionally constructs
array and slice types carrying a flattened element-type list and a length,
so those variants are included here as context.rs uses them. -/
inductive SsaType where
  | numeric (t : NumericType)
  | reference
  | function
  | unit
  | array (elementTypes : List SsaType) (len : Nat)
  | slice (elementTypes : List SsaType)
deriving Repr

/-- ir/types.rs Type::signed. -/
def SsaType.signed (bitSize : Nat) : SsaType := .numeric (.signed bitSize)

/-- ir/types.rs Type::unsigned. -/
def SsaType.unsigned (bitSize : Nat) : SsaType := .numeric (.unsigned bitSize)

/-- ir/types.rs Type::field. -/
def SsaType.fieldType : SsaType := .numeric .nativeField

/-- Modelled from the spec: Type::bool is the 1-bit unsigned type (the spec
maps Bool to a 1-bit unsigned integer; the helper itself lives outside the
provided ir/types.rs excerpt). -/
def SsaType.boolType : SsaType := .unsigned 1

/-- Modelled from the spec: Type::char, the character-width element type of
string arrays (an 8-bit unsigned integer). -/
def SsaType.charType : SsaType := .unsigned 8

/-- The recursive value-tree structure (ssa_gen/value.rs Tree):
a Leaf holding one payload or an ordered Branch of subtrees.
An empty Branch represents Unit. -/
inductive Tree (T : Type) where
  | leaf (v : T)
  | branch (trees : List (Tree T))
deriving Repr

/-- value.rs Tree::empty: the empty branch, representing Unit. -/
def Tree.emptyTree {T : Type} : Tree T := .branch []

mutual

/-- value.rs Tree::flatten: the leaves of the tree in left-to-right order. -/
def Tree.flatten {T : Type} : Tree T → List T
  | .leaf v => [v]
  | .branch ts => Tree.flattenList ts

/-- Leaves of a list of trees, in order (the list part of Tree::flatten). -/
def Tree.flattenList {T : Type} : List (Tree T) → List T
  | [] => []
  | t :: ts => t.flatten ++ Tree.flattenList ts

end

mutual

/-- Structural weight of an AstType, used as a termination measure for the
type-flattening functions.  A formatted string weighs strictly more than the
3-tuple it desugars to, so the desugaring recursion decreases. -/
def AstType.weight : AstType → Nat
  | .field => 1
  | .array _ element => 1 + element.weight
  | .integer _ _ => 1
  | .bool => 1
  | .string _ => 1
  | .fmtString _ fields => 7 + fields.weight
  | .unit => 1
  | .tuple fields => 1 + AstType.weightList fields
  | .function => 1
  | .slice element => 1 + element.weight
  | .mutableReference element => 1 + element.weight

/-- Sum of the weights of a list of types (each entry also counts one). -/
def AstType.weightList : List AstType → Nat
  | [] => 0
  | t :: ts => 1 + t.weight + AstType.weightList ts

end

mutual

/-- context.rs map_type_helper: maps a surface type to a Tree of results,
applying f at every leaf.  Tuples become branches, Unit the empty branch, a
mutable reference recurses into its element with every leaf reported as a
Reference, and a format string desugars to the 3-tuple
(String(len), Field, captures) before flattening.  Panics (from
convert_non_tuple_type) are modelled as none. -/
def map_type_helper {T : Type} (f : SsaType → T) (typ : AstType) : Option (Tree T) :=
  match typ with
  | .tuple fields => do
      let ts ← map_type_fields f fields
      some (Tree.branch ts)
  | .unit => some Tree.emptyTree
  | .mutableReference element =>
      map_type_helper (fun _ => f SsaType.reference) element
  | .fmtString len fields =>
      map_type_helper f (.tuple [.string len, .field, fields])
  | other => do
      let t ← convert_non_tuple_type other
      some (Tree.leaf (f t))
termination_by 4 * typ.weight + 2
decreasing_by
  all_goals simp [AstType.weight, AstType.weightList]
  all_goals omega

/-- The vecmap over tuple fields inside map_type_helper. -/
def map_type_fields {T : Type} (f : SsaType → T) (fields : List AstType) :
    Option (List (Tree T)) :=
  match fields with
  | [] => some []
  | t :: ts => do
      let tree ← map_type_helper f t
      let rest ← map_type_fields f ts
      some (tree :: rest)
termination_by 4 * AstType.weightList fields + 3
decreasing_by
  all_goals simp [AstType.weight, AstType.weightList]
  all_goals omega

/-- context.rs convert_non_tuple_type: converts a non-tuple surface type into
a single SSA type.  The Rust function panics when passed a tuple, unit or
format-string type (modelled as none). -/
def convert_non_tuple_type (typ : AstType) : Option SsaType :=
  match typ with
  | .field => some SsaType.fieldType
  | .array len element => do
      let tree ← map_type_helper (fun x => x) element
      some (SsaType.array tree.flatten len)
  | .integer .signed bits => some (.signed bits)
  | .integer .unsigned bits => some (.unsigned bits)
  | .bool => some (.unsigned 1)
  | .string len => some (SsaType.array [SsaType.charType] len)
  | .fmtString _ _ => none
  | .unit => none
  | .tuple _ => none
  | .function => some SsaType.function
  | .slice element => do
      let tree ← map_type_helper (fun x => x) element
      some (SsaType.slice tree.flatten)
  | .mutableReference element => do
      let _ ← convert_non_tuple_type element
      some SsaType.reference
termination_by 4 * typ.weight + 1
decreasing_by
  all_goals simp [AstType.weight, AstType.weightList]
  all_goals omega

end

/-- context.rs map_type: the public tree-flattening entry point (delegates to
map_type_helper). -/
def map_type {T : Type} (typ : AstType) (f : SsaType → T) : Option (Tree T) :=
  map_type_helper f typ

/-- context.rs convert_type: converts a surface type to a tree of SSA types,
preserving tuple structure (map_type_helper with the identity function). -/
def convert_type (typ : AstType) : Option (Tree SsaType) :=
  map_type_helper (fun x => x) typ

mutual

/-- context.rs try_map_type_helper: the fallible variant of map_type_helper.
Note that, unlike map_type_helper, it has no arm for format-string types:
those fall through to convert_non_tuple_type, which panics on them (modelled
as the outer none).  A recoverable failure of f is the inner Except.error. -/
def try_map_type_helper {T E : Type} (f : SsaType → Except E T) (typ : AstType) :
    Option (Except E (Tree T)) :=
  match typ with
  | .tuple fields => do
      match ← try_map_type_fields f fields with
      | .error e => some (.error e)
      | .ok ts => some (.ok (Tree.branch ts))
  | .unit => some (.ok Tree.emptyTree)
  | .mutableReference element =>
      try_map_type_helper (fun _ => f SsaType.reference) element
  | other => do
      let t ← convert_non_tuple_type other
      match f t with
      | .error e => some (.error e)
      | .ok v => some (.ok (Tree.leaf v))
termination_by 4 * typ.weight + 2
decreasing_by
  all_goals simp [AstType.weight, AstType.weightList]
  all_goals omega

/-- The try_vecmap over tuple fields inside try_map_type_helper: stops at the
first recoverable error. -/
def try_map_type_fields {T E : Type} (f : SsaType → Except E T)
    (fields : List AstType) : Option (Except E (List (Tree T))) :=
  match fields with
  | [] => some (.ok [])
  | t :: ts => do
      match ← try_map_type_helper f t with
      | .error e => some (.error e)
      | .ok tree =>
          match ← try_map_type_fields f ts with
          | .error e => some (.error e)
          | .ok rest => some (.ok (tree :: rest))
termination_by 4 * AstType.weightList fields + 3
decreasing_by
  all_goals simp [AstType.weight, AstType.weightList]
  all_goals omega

end

/-- context.rs try_map_type: the public fallible tree-flattening entry point
(delegates to try_map_type_helper). -/
def try_map_type {T E : Type} (typ : AstType) (f : SsaType → Except E T) :
    Option (Except E (Tree T)) :=
  try_map_type_helper f typ

/-- The surface binary operators (noirc_frontend BinaryOpKind), as matched on
by context.rs. -/
inductive BinaryOpKind where
  | add
  | subtract
  | multiply
  | divide
  | modulo
  | equal
  | notEqual
  | less
  | lessEqual
  | greater
  | greaterEqual
  | bitAnd
  | bitOr
  | bitXor
  | shiftRight
  | shiftLeft
deriving DecidableEq, Repr

/-- The IR binary operators (ir/instruction.rs BinaryOp), exactly the set the
spec lists: Add, Sub, Mul, Div, Mod, Eq, Lt, And, Or, Xor, Shl, Shr. -/
inductive BinaryOp where
  | add
  | sub
  | mul
  | div
  | mod
  | eq
  | lt
  | bAnd
  | bOr
  | bXor
  | shl
  | shr
deriving DecidableEq, Repr

/-- A value-producing IR instruction, as requested from the builder layer by
context.rs. -/
inductive Instr where
  | binary (lhs : ValueId) (op : BinaryOp) (rhs : ValueId)
  | notOp (v : ValueId)
  | truncate (v : ValueId) (bitSize : Nat) (maxBitSize : Nat)
  | allocate
  | load (address : ValueId) (typ : SsaType)
  | arrayGet (arr : ValueId) (index : ValueId) (typ : SsaType)
  | arraySet (arr : ValueId) (index : ValueId) (value : ValueId)
deriving Repr

/-- One emission event of the builder layer, in program order: a
value-producing instruction, a store, a terminator, or a block parameter.
Each event records the basic block it belongs to. -/
inductive Event where
  | instr (block : BlockId) (result : ValueId) (i : Instr)
  | store (block : BlockId) (address : ValueId) (value : ValueId)
  | jmp (block : BlockId) (dest : BlockId) (args : List ValueId)
  | jmpif (block : BlockId) (cond : ValueId) (thenDest : BlockId) (elseDest : BlockId)
  | param (block : BlockId) (value : ValueId) (typ : SsaType)
deriving Repr

/-- Modelled from the spec: the state of the block/instruction construction
layer (ssa_builder FunctionBuilder and ir DataFlowGraph are not among the
provided sources; the spec treats them as a lower-level collaborator exposing
primitives such as insert-binary, allocate, load/store, branch and
switch-block).  The model records the sequence of emission events, allocates
value and block ids from counters, and remembers the type of each value and, for
constants, its numeric value.  Source locations are metadata only and are
elided. -/
structure Builder where
  nextValue : ValueId
  nextBlock : BlockId
  currentBlock : BlockId
  types : List (ValueId × SsaType)
  consts : List (ValueId × Nat)
  trace : List Event
deriving Repr

/-- Allocate a fresh value id of the given type. -/
def Builder.fresh (s : Builder) (typ : SsaType) : Builder × ValueId :=
  ({ s with nextValue := s.nextValue + 1, types := (s.nextValue, typ) :: s.types },
   s.nextValue)

/-- Append one event to the emission trace. -/
def Builder.emit (s : Builder) (e : Event) : Builder :=
  { s with trace := s.trace ++ [e] }

/-- First-match association-list lookup (the map lookups of the data-flow
graph). -/
def assocLookup {A : Type} : List (ValueId × A) → ValueId → Option A
  | [], _ => none
  | (w, t) :: rest, v => if w = v then some t else assocLookup rest v

/-- The type of a value (DataFlowGraph type_of_value); none models the panic
on an unknown id. -/
def Builder.type_of_value (s : Builder) (v : ValueId) : Option SsaType :=
  assocLookup s.types v

/-- The numeric value of a constant (DataFlowGraph get_numeric_constant):
some only for ids created as numeric constants. -/
def Builder.get_numeric_constant (s : Builder) (v : ValueId) : Option Nat :=
  assocLookup s.consts v

/-- Modelled from the spec: builder numeric_constant creates a constant value
of the given numeric type.  Constants are values, not instructions, so no
event is emitted.  (The real data-flow graph interns repeated constants;
that affects only id numbering and is elided.) -/
def Builder.numeric_constant (s : Builder) (value : Nat) (typ : SsaType) :
    Builder × ValueId :=
  let (s, v) := s.fresh typ
  ({ s with consts := (v, value) :: s.consts }, v)

/-- Builder field_constant: a numeric constant of the native field type. -/
def Builder.field_constant (s : Builder) (value : Nat) : Builder × ValueId :=
  s.numeric_constant value SsaType.fieldType

/-- Modelled from the spec: the result type of an IR binary instruction.
Comparisons (Eq, Lt) produce a boolean (1-bit unsigned) result; every other
binary operator produces a result of the type of its left operand. -/
def binaryResultType (op : BinaryOp) (lhsType : SsaType) : SsaType :=
  if op = .eq ∨ op = .lt then SsaType.boolType else lhsType

/-- Modelled from the spec: builder insert_binary emits one binary
instruction in the current block and returns its fresh result value. -/
def Builder.insert_binary_prim (s : Builder) (lhs : ValueId) (op : BinaryOp)
    (rhs : ValueId) : Option (Builder × ValueId) := do
  let lhsType ← s.type_of_value lhs
  let (s, r) := s.fresh (binaryResultType op lhsType)
  some (s.emit (.instr s.currentBlock r (.binary lhs op rhs)), r)

/-- Modelled from the spec: builder insert_not emits a logical negation; its
result has the type of the operand. -/
def Builder.insert_not (s : Builder) (v : ValueId) : Option (Builder × ValueId) := do
  let t ← s.type_of_value v
  let (s, r) := s.fresh t
  some (s.emit (.instr s.currentBlock r (.notOp v)), r)

/-- Modelled from the spec: builder insert_truncate emits a truncation of the
value to bitSize bits (given it currently fits in maxBitSize bits); its
result has the type of the operand. -/
def Builder.insert_truncate (s : Builder) (v : ValueId) (bitSize maxBitSize : Nat) :
    Option (Builder × ValueId) := do
  let t ← s.type_of_value v
  let (s, r) := s.fresh t
  some (s.emit (.instr s.currentBlock r (.truncate v bitSize maxBitSize)), r)

/-- Modelled from the spec: builder insert_allocate emits a one-slot memory
allocation and returns the fresh reference value. -/
def Builder.insert_allocate (s : Builder) : Option (Builder × ValueId) :=
  let (s, r) := s.fresh SsaType.reference
  some (s.emit (.instr s.currentBlock r .allocate), r)

/-- Modelled from the spec: builder insert_store emits a store of value into
address; a store produces no result value. -/
def Builder.insert_store (s : Builder) (address value : ValueId) : Option Builder :=
  some (s.emit (.store s.currentBlock address value))

/-- Modelled from the spec: builder insert_load emits a load from address at
the given result type. -/
def Builder.insert_load (s : Builder) (address : ValueId) (typ : SsaType) :
    Option (Builder × ValueId) :=
  let (s, r) := s.fresh typ
  some (s.emit (.instr s.currentBlock r (.load address typ)), r)

/-- Modelled from the spec: builder insert_array_get emits an indexed array
read at the given element type. -/
def Builder.insert_array_get (s : Builder) (arr index : ValueId) (typ : SsaType) :
    Option (Builder × ValueId) :=
  let (s, r) := s.fresh typ
  some (s.emit (.instr s.currentBlock r (.arrayGet arr index typ)), r)

/-- Modelled from the spec: builder insert_array_set emits a value-semantic
array write, returning the new array value (of the type of the original array). -/
def Builder.insert_array_set (s : Builder) (arr index value : ValueId) :
    Option (Builder × ValueId) := do
  let t ← s.type_of_value arr
  let (s, r) := s.fresh t
  some (s.emit (.instr s.currentBlock r (.arraySet arr index value)), r)

/-- Modelled from the spec: builder insert_block allocates a fresh basic
block (without switching to it). -/
def Builder.insert_block (s : Builder) : Builder × BlockId :=
  ({ s with nextBlock := s.nextBlock + 1 }, s.nextBlock)

/-- Modelled from the spec: builder switch_to_block repositions the insertion
cursor at the given block. -/
def Builder.switch_to_block (s : Builder) (b : BlockId) : Builder :=
  { s with currentBlock := b }

/-- Modelled from the spec: builder add_block_parameter adds a fresh typed
parameter value to the given block. -/
def Builder.add_block_parameter (s : Builder) (b : BlockId) (typ : SsaType) :
    Builder × ValueId :=
  let (s, r) := s.fresh typ
  (s.emit (.param b r typ), r)

/-- Modelled from the spec: builder terminate_with_jmp terminates the current
block with an unconditional jump carrying block arguments. -/
def Builder.terminate_with_jmp (s : Builder) (dest : BlockId) (args : List ValueId) :
    Builder :=
  s.emit (.jmp s.currentBlock dest args)

/-- Modelled from the spec: builder terminate_with_jmpif terminates the
current block with a conditional branch. -/
def Builder.terminate_with_jmpif (s : Builder) (cond : ValueId)
    (thenDest elseDest : BlockId) : Builder :=
  s.emit (.jmpif s.currentBlock cond thenDest elseDest)

mutual

/-- Structural equality test on SsaType (the derived PartialEq used by the
assert_eq in insert_array_equality). -/
def SsaType.beq : SsaType → SsaType → Bool
  | .numeric x, .numeric y => x = y
  | .reference, .reference => true
  | .function, .function => true
  | .unit, .unit => true
  | .array xs n, .array ys m => SsaType.beqList xs ys && n = m
  | .slice xs, .slice ys => SsaType.beqList xs ys
  | _, _ => false

/-- Structural equality test on lists of SsaType. -/
def SsaType.beqList : List SsaType → List SsaType → Bool
  | [], [] => true
  | x :: xs, y :: ys => SsaType.beq x y && SsaType.beqList xs ys
  | _, _ => false

end

mutual

theorem SsaType.beq_refl : ∀ a : SsaType, SsaType.beq a a = true
  | .numeric _ => by simp [SsaType.beq]
  | .reference => rfl
  | .function => rfl
  | .unit => rfl
  | .array xs _ => by simp [SsaType.beq, SsaType.beqList_refl xs]
  | .slice xs => by simp [SsaType.beq, SsaType.beqList_refl xs]

theorem SsaType.beqList_refl : ∀ xs : List SsaType, SsaType.beqList xs xs = true
  | [] => rfl
  | x :: xs => by simp [SsaType.beqList, SsaType.beq_refl x, SsaType.beqList_refl xs]

end

/-- context.rs operator_requires_not: true for the surface operators whose
lowering ends in a logical negation (NotEqual, LessEqual, GreaterEqual). -/
def operator_requires_not (op : BinaryOpKind) : Bool :=
  match op with
  | .notEqual | .lessEqual | .greaterEqual => true
  | _ => false

/-- context.rs operator_requires_swapped_operands: true for the surface
operators lowered with their operands swapped (Greater, LessEqual). -/
def operator_requires_swapped_operands (op : BinaryOpKind) : Bool :=
  match op with
  | .greater | .lessEqual => true
  | _ => false

/-- context.rs convert_operator: the base IR operator of each surface
operator (NotEqual to Eq; Greater, LessEqual, GreaterEqual to Lt). -/
def convert_operator (op : BinaryOpKind) : BinaryOp :=
  match op with
  | .add => .add
  | .subtract => .sub
  | .multiply => .mul
  | .divide => .div
  | .modulo => .mod
  | .equal => .eq
  | .notEqual => .eq
  | .less => .lt
  | .greater => .lt
  | .lessEqual => .lt
  | .greaterEqual => .lt
  | .bitAnd => .bAnd
  | .bitOr => .bOr
  | .bitXor => .bXor
  | .shiftRight => .shr
  | .shiftLeft => .shl

/-- Modelled from the spec: the maximum bit width of the native field
(acvm FieldElement::max_num_bits; 254 for the BN254 scalar field). -/
def field_max_num_bits : Nat := 254

/-- The get_bit_size closure inside operator_result_max_bit_size_to_truncate:
the declared width of a signed or unsigned integer type; none otherwise
(native field and every non-numeric type). -/
def get_bit_size (typ : SsaType) : Option Nat :=
  match typ with
  | .numeric (.signed bitSize) => some bitSize
  | .numeric (.unsigned bitSize) => some bitSize
  | _ => none

/-- context.rs operator_result_max_bit_size_to_truncate: if the operation
requires its (integer) result to be truncated, the maximum number of bits the
result may occupy.  The u32 arithmetic of the Rust code is modelled on Nat
with explicit wrap checks against 2^32; the wrapping cast
(rhs_constant.to_u128() as u32) is modelled as reduction mod 2^128 then
mod 2^32. -/
def operator_result_max_bit_size_to_truncate (op : BinaryOpKind)
    (lhs rhs : ValueId) (dfg : Builder) : Option Nat :=
  match (dfg.type_of_value lhs).bind get_bit_size,
        (dfg.type_of_value rhs).bind get_bit_size with
  | some lhs_bit_size, some rhs_bit_size =>
    (match op with
     | .add => some (max lhs_bit_size rhs_bit_size + 1)
     | .subtract => some (max lhs_bit_size rhs_bit_size + 1)
     | .multiply => some (lhs_bit_size + rhs_bit_size)
     | .shiftLeft =>
         (match dfg.get_numeric_constant rhs with
          | some rhs_constant =>
              some (lhs_bit_size + rhs_constant % 2 ^ 128 % 2 ^ 32)
          | none =>
              let field_max_bits := field_max_num_bits
              if 2 ^ rhs_bit_size ≥ 2 ^ 32 then
                some field_max_bits
              else if 2 ^ rhs_bit_size + lhs_bit_size ≥ 2 ^ 32 then
                some field_max_bits
              else
                some (min (2 ^ rhs_bit_size + lhs_bit_size - 1) field_max_bits))
     | _ => none)
  | _, _ => none

/-- True exactly for IR array types (the matches! Type::Array(..) test in
insert_binary). -/
def SsaType.isArray : SsaType → Bool
  | .array _ _ => true
  | _ => false

/-- context.rs insert_array_equality: expands Eq/NotEqual on array operands
into an explicit loop.  Asserts (modelled as none): both operands are arrays,
the flattened element-type list of each has length one, the element types are
equal, and the lengths are equal.  The generated blocks are: the current
block allocates a 1-bit accumulator, stores true, and jumps to loop_start
with index 0; loop_start tests i < length and branches to loop_body or
loop_end; loop_body reads both arrays at i, ANDs the element equality into
the loaded accumulator, stores it back, increments i and jumps back;
loop_end loads the accumulator and negates it for NotEqual. -/
def insert_array_equality (s : Builder) (lhs : ValueId)
    (operator : BinaryOpKind) (rhs : ValueId) : Option (Builder × ValueId) := do
  let lhs_type ← s.type_of_value lhs
  let rhs_type ← s.type_of_value rhs
  let (array_length, element_type) ←
    match lhs_type, rhs_type with
    | .array lhsCompositeType lhsLength, .array rhsCompositeType rhsLength =>
        match lhsCompositeType, rhsCompositeType with
        | [lhsElement], [rhsElement] =>
            if SsaType.beq lhsElement rhsElement && (lhsLength = rhsLength : Bool) then
              some (lhsLength, lhsElement)
            else
              none
        | _, _ => none
    | _, _ => none
  let (s, loop_start) := s.insert_block
  let (s, loop_body) := s.insert_block
  let (s, loop_end) := s.insert_block
  let (s, result_alloc) ← s.insert_allocate
  let (s, true_value) := s.numeric_constant 1 SsaType.boolType
  let s ← s.insert_store result_alloc true_value
  let (s, zero_value) := s.field_constant 0
  let s := s.terminate_with_jmp loop_start [zero_value]
  let s := s.switch_to_block loop_start
  let (s, i) := s.add_block_parameter loop_start SsaType.fieldType
  let (s, array_length_c) := s.field_constant array_length
  let (s, v0) ← s.insert_binary_prim i .lt array_length_c
  let s := s.terminate_with_jmpif v0 loop_body loop_end
  let s := s.switch_to_block loop_body
  let (s, v1) ← s.insert_array_get lhs i element_type
  let (s, v2) ← s.insert_array_get rhs i element_type
  let (s, v3) ← s.insert_binary_prim v1 .eq v2
  let (s, v4) ← s.insert_load result_alloc SsaType.boolType
  let (s, v5) ← s.insert_binary_prim v4 .bAnd v3
  let s ← s.insert_store result_alloc v5
  let (s, one) := s.field_constant 1
  let (s, v6) ← s.insert_binary_prim i .add one
  let s := s.terminate_with_jmp loop_start [v6]
  let s := s.switch_to_block loop_end
  let (s, result) ← s.insert_load result_alloc SsaType.boolType
  if operator_requires_not operator then
    s.insert_not result
  else
    some (s, result)

/-- context.rs insert_binary: lowers a surface binary expression onto the IR
operator set.  Array-typed Eq dispatches to insert_array_equality; otherwise
the operands are swapped when required, the base instruction is emitted, a
truncation is emitted when operator_result_max_bit_size_to_truncate demands
one, and finally a logical negation is emitted when required. -/
def insert_binary (s : Builder) (lhs0 : ValueId) (operator : BinaryOpKind)
    (rhs0 : ValueId) : Option (Builder × ValueId) := do
  let op := convert_operator operator
  let lhsType ← s.type_of_value lhs0
  if op = BinaryOp.eq ∧ lhsType.isArray = true then
    insert_array_equality s lhs0 operator rhs0
  else
    let (lhs, rhs) :=
      if operator_requires_swapped_operands operator then (rhs0, lhs0) else (lhs0, rhs0)
    let (s, result0) ← s.insert_binary_prim lhs op rhs
    let (s, result1) ←
      match operator_result_max_bit_size_to_truncate operator lhs rhs s with
      | some max_bit_size => do
          let result_type ← s.type_of_value result0
          match get_bit_size result_type with
          | some bit_size => s.insert_truncate result0 bit_size max_bit_size
          | none => none
      | none => some (s, result0)
    if operator_requires_not operator then
      s.insert_not result1
    else
      some (s, result1)

/-- Looking up the most recently allocated value in a builder state. -/
theorem Builder.type_of_value_head (nv nb cb : Nat) (consts : List (ValueId × Nat))
    (trace : List Event) (v : ValueId) (t : SsaType) (rest : List (ValueId × SsaType)) :
    Builder.type_of_value ⟨nv, nb, cb, (v, t) :: rest, consts, trace⟩ v = some t := by
  simp [Builder.type_of_value, assocLookup]

/-- A type with a bit size is an integer type, hence not an array type. -/
theorem get_bit_size_not_array {t : SsaType} {w : Nat} (h : get_bit_size t = some w) :
    t.isArray = false := by
  cases t <;> simp_all [get_bit_size, SsaType.isArray]

/-- Comparison operators never give rise to a truncation bound. -/
theorem comparison_no_truncate (op : BinaryOpKind)
    (hcmp : op = .equal ∨ op = .notEqual ∨ op = .less ∨ op = .greater ∨
            op = .lessEqual ∨ op = .greaterEqual)
    (lhs rhs : ValueId) (dfg : Builder) :
    operator_result_max_bit_size_to_truncate op lhs rhs dfg = none := by
  rcases hcmp with h | h | h | h | h | h <;> subst h <;>
    (unfold operator_result_max_bit_size_to_truncate; split) <;> rfl

/-- The lowering result the spec describes for a scalar comparison: swap the
operands when required, emit the base Eq/Lt instruction (whose result is
boolean), and negate its result when required; no truncation is emitted. -/
def comparison_lowering_spec (s : Builder) (lhs rhs : ValueId)
    (operator : BinaryOpKind) : Option (Builder × ValueId) :=
  let swap := operator_requires_swapped_operands operator
  let neg := operator_requires_not operator
  let a := if swap then rhs else lhs
  let b := if swap then lhs else rhs
  let n := s.nextValue
  let c := s.currentBlock
  let base := Event.instr c n (Instr.binary a (convert_operator operator) b)
  if neg then
    some ({ s with
            nextValue := n + 1 + 1
            types := (n + 1, SsaType.boolType) :: (n, SsaType.boolType) :: s.types
            trace := s.trace ++ [base, Event.instr c (n + 1) (Instr.notOp n)] }, n + 1)
  else
    some ({ s with
            nextValue := n + 1
            types := (n, SsaType.boolType) :: s.types
            trace := s.trace ++ [base] }, n)

/-- C1: for every surface comparison operator on integer operands,
insert_binary emits exactly the base instruction dictated by
convert_operator on the operands as swapped by
operator_requires_swapped_operands, followed (after no truncation, which a
comparison never requires) by a logical negation of the base result exactly
when operator_requires_not demands it; and the tables are: Greater is Lt
with swapped operands, LessEqual is Lt swapped plus negation, GreaterEqual
is Lt plus negation, NotEqual is Eq plus negation, Equal and Less are Eq
and Lt directly. -/
theorem C1_comparison_lowering (s : Builder) (lhs rhs : ValueId)
    (operator : BinaryOpKind) (tl tr : SsaType) (wl wr : Nat)
    (hl : s.type_of_value lhs = some tl) (hr : s.type_of_value rhs = some tr)
    (hwl : get_bit_size tl = some wl) (hwr : get_bit_size tr = some wr)
    (hcmp : operator = .equal ∨ operator = .notEqual ∨ operator = .less ∨
            operator = .greater ∨ operator = .lessEqual ∨ operator = .greaterEqual) :
    insert_binary s lhs operator rhs = comparison_lowering_spec s lhs rhs operator
    ∧ convert_operator .equal = .eq ∧ convert_operator .notEqual = .eq
    ∧ convert_operator .less = .lt ∧ convert_operator .greater = .lt
    ∧ convert_operator .lessEqual = .lt ∧ convert_operator .greaterEqual = .lt
    ∧ operator_requires_swapped_operands .greater = true
    ∧ operator_requires_swapped_operands .lessEqual = true
    ∧ operator_requires_swapped_operands .equal = false
    ∧ operator_requires_swapped_operands .notEqual = false
    ∧ operator_requires_swapped_operands .less = false
    ∧ operator_requires_swapped_operands .greaterEqual = false
    ∧ operator_requires_not .notEqual = true
    ∧ operator_requires_not .lessEqual = true
    ∧ operator_requires_not .greaterEqual = true
    ∧ operator_requires_not .equal = false
    ∧ operator_requires_not .less = false
    ∧ operator_requires_not .greater = false := by
  have harr := get_bit_size_not_array hwl
  have hnt := comparison_no_truncate operator hcmp
  refine ⟨?_, by decide⟩
  rcases hcmp with h | h | h | h | h | h <;> subst h <;>
    simp [insert_binary, comparison_lowering_spec, operator_requires_swapped_operands,
      operator_requires_not, convert_operator, Builder.insert_binary_prim,
      Builder.fresh, Builder.emit, Builder.insert_not, hl, hr, harr, hnt,
      binaryResultType, Builder.type_of_value_head, List.append_assoc]

/-- A concrete builder holding two 8-bit unsigned values, ids 0 and 1. -/
def c1Builder : Builder :=
  { nextValue := 2, nextBlock := 0, currentBlock := 0,
    types := [(0, SsaType.unsigned 8), (1, SsaType.unsigned 8)],
    consts := [], trace := [] }

theorem C1_comparison_lowering_witness :
    c1Builder.type_of_value 0 = some (SsaType.unsigned 8)
    ∧ c1Builder.type_of_value 1 = some (SsaType.unsigned 8)
    ∧ get_bit_size (SsaType.unsigned 8) = some 8
    ∧ (insert_binary c1Builder 0 .lessEqual 1 =
        comparison_lowering_spec c1Builder 0 1 .lessEqual
       ∧ convert_operator .equal = .eq ∧ convert_operator .notEqual = .eq
       ∧ convert_operator .less = .lt ∧ convert_operator .greater = .lt
       ∧ convert_operator .lessEqual = .lt ∧ convert_operator .greaterEqual = .lt
       ∧ operator_requires_swapped_operands .greater = true
       ∧ operator_requires_swapped_operands .lessEqual = true
       ∧ operator_requires_swapped_operands .equal = false
       ∧ operator_requires_swapped_operands .notEqual = false
       ∧ operator_requires_swapped_operands .less = false
       ∧ operator_requires_swapped_operands .greaterEqual = false
       ∧ operator_requires_not .notEqual = true
       ∧ operator_requires_not .lessEqual = true
       ∧ operator_requires_not .greaterEqual = true
       ∧ operator_requires_not .equal = false
       ∧ operator_requires_not .less = false
       ∧ operator_requires_not .greater = false) :=
  ⟨rfl, rfl, rfl,
   C1_comparison_lowering c1Builder 0 1 .lessEqual (SsaType.unsigned 8)
     (SsaType.unsigned 8) 8 8 rfl rfl rfl rfl (by decide)⟩

/-- C2 (amended): with integer-typed operands of widths w1 and w2, the
truncation bound is max w1 w2 + 1 for Add and Subtract, w1 + w2 for
Multiply, and, for a left shift by a compile-time constant k, w1 plus k cast
to u32 (the Rust code computes rhs_constant.to_u128() as u32, i.e.
k mod 2^128 mod 2^32); no bound is produced for any other operator, nor when
either operand is not integer-typed. -/
theorem C2_truncation_widths (s : Builder) (lhs rhs : ValueId) (tl tr : SsaType)
    (hl : s.type_of_value lhs = some tl) (hr : s.type_of_value rhs = some tr) :
    (∀ w1 w2, get_bit_size tl = some w1 → get_bit_size tr = some w2 →
      operator_result_max_bit_size_to_truncate .add lhs rhs s = some (max w1 w2 + 1)
      ∧ operator_result_max_bit_size_to_truncate .subtract lhs rhs s =
          some (max w1 w2 + 1)
      ∧ operator_result_max_bit_size_to_truncate .multiply lhs rhs s = some (w1 + w2)
      ∧ (∀ k, s.get_numeric_constant rhs = some k →
          operator_result_max_bit_size_to_truncate .shiftLeft lhs rhs s =
            some (w1 + k % 2 ^ 128 % 2 ^ 32)))
    ∧ (∀ op, op ≠ .add → op ≠ .subtract → op ≠ .multiply → op ≠ .shiftLeft →
        operator_result_max_bit_size_to_truncate op lhs rhs s = none)
    ∧ (get_bit_size tl = none ∨ get_bit_size tr = none →
        ∀ op, operator_result_max_bit_size_to_truncate op lhs rhs s = none) := by
  refine ⟨?_, ?_, ?_⟩
  · intro w1 w2 h1 h2
    refine ⟨?_, ?_, ?_, ?_⟩
    · unfold operator_result_max_bit_size_to_truncate
      simp [hl, hr, h1, h2]
    · unfold operator_result_max_bit_size_to_truncate
      simp [hl, hr, h1, h2]
    · unfold operator_result_max_bit_size_to_truncate
      simp [hl, hr, h1, h2]
    · intro k hk
      unfold operator_result_max_bit_size_to_truncate
      simp [hl, hr, h1, h2, hk]
  · intro op h1 h2 h3 h4
    unfold operator_result_max_bit_size_to_truncate
    split
    · cases op <;> simp_all
    · rfl
  · intro h op
    unfold operator_result_max_bit_size_to_truncate
    rcases h with h | h <;> simp [hl, hr, h]


/-- A concrete builder for the shift-by-constant counterexample: value 0 is a
u8, value 1 is a u64 holding the constant 2^32 (a value representable in its
u64 type). -/
def c2Builder : Builder :=
  { nextValue := 2, nextBlock := 0, currentBlock := 0,
    types := [(0, SsaType.unsigned 8), (1, SsaType.unsigned 64)],
    consts := [(1, 2 ^ 32)], trace := [] }

/-- C2 as frozen is false: shifting a u8 left by the u64 compile-time
constant k = 2^32 yields the truncation bound 8 (the cast
rhs_constant.to_u128() as u32 wraps k to 0), not lhs_bits + k = 8 + 2^32. -/
theorem C2_counterexample :
    c2Builder.type_of_value 0 = some (SsaType.unsigned 8)
    ∧ c2Builder.type_of_value 1 = some (SsaType.unsigned 64)
    ∧ c2Builder.get_numeric_constant 1 = some (2 ^ 32)
    ∧ operator_result_max_bit_size_to_truncate .shiftLeft 0 1 c2Builder = some 8
    ∧ some 8 ≠ some (8 + 2 ^ 32 : Nat) := by
  refine ⟨rfl, rfl, rfl, by decide, by decide⟩

theorem C2_truncation_widths_witness :
    c2Builder.type_of_value 0 = some (SsaType.unsigned 8)
    ∧ c2Builder.type_of_value 1 = some (SsaType.unsigned 64)
    ∧ ((∀ w1 w2, get_bit_size (SsaType.unsigned 8) = some w1 →
          get_bit_size (SsaType.unsigned 64) = some w2 →
          operator_result_max_bit_size_to_truncate .add 0 1 c2Builder =
            some (max w1 w2 + 1)
          ∧ operator_result_max_bit_size_to_truncate .subtract 0 1 c2Builder =
              some (max w1 w2 + 1)
          ∧ operator_result_max_bit_size_to_truncate .multiply 0 1 c2Builder =
              some (w1 + w2)
          ∧ (∀ k, c2Builder.get_numeric_constant 1 = some k →
              operator_result_max_bit_size_to_truncate .shiftLeft 0 1 c2Builder =
                some (w1 + k % 2 ^ 128 % 2 ^ 32)))
        ∧ (∀ op, op ≠ .add → op ≠ .subtract → op ≠ .multiply → op ≠ .shiftLeft →
            operator_result_max_bit_size_to_truncate op 0 1 c2Builder = none)
        ∧ (get_bit_size (SsaType.unsigned 8) = none
            ∨ get_bit_size (SsaType.unsigned 64) = none →
            ∀ op, operator_result_max_bit_size_to_truncate op 0 1 c2Builder = none)) :=
  ⟨rfl, rfl, C2_truncation_widths c2Builder 0 1 (SsaType.unsigned 8)
    (SsaType.unsigned 64) rfl rfl⟩

/-- C3 (amended): for a left shift by a non-constant amount with
integer-typed operands of widths w1 and w2, the bound is the minimum of
w1 + 2^w2 - 1 and the maximum bit width of the native field; if computing 2^w2 as
a u32 overflows, or adding w1 to it overflows, the bound falls back to the
maximum bit width of the native field. -/
theorem C3_shift_unknown_amount (s : Builder) (lhs rhs : ValueId)
    (tl tr : SsaType) (w1 w2 : Nat)
    (hl : s.type_of_value lhs = some tl) (hr : s.type_of_value rhs = some tr)
    (hwl : get_bit_size tl = some w1) (hwr : get_bit_size tr = some w2)
    (hk : s.get_numeric_constant rhs = none) :
    operator_result_max_bit_size_to_truncate .shiftLeft lhs rhs s =
      some (if 2 ^ w2 ≥ 2 ^ 32 then field_max_num_bits
            else if 2 ^ w2 + w1 ≥ 2 ^ 32 then field_max_num_bits
            else min (2 ^ w2 + w1 - 1) field_max_num_bits) := by
  unfold operator_result_max_bit_size_to_truncate
  simp only [hl, hr, Option.some_bind, hwl, hwr, hk]
  split
  · rfl
  · split
    · rfl
    · rfl

/-- A concrete builder for the shift-by-unknown counterexample: value 0 is a
u64, value 1 is a u8 that is not a compile-time constant. -/
def c3Builder : Builder :=
  { nextValue := 2, nextBlock := 0, currentBlock := 0,
    types := [(0, SsaType.unsigned 64), (1, SsaType.unsigned 8)],
    consts := [], trace := [] }

/-- C3 as frozen is false: shifting a u64 left by a non-constant u8 gives
the bound 254 (the native field maximum, since the code clamps the precise
bound with min even when neither u32 computation overflows), not
lhs_bits + 2^rhs_bits - 1 = 64 + 256 - 1 = 319. -/
theorem C3_counterexample :
    c3Builder.type_of_value 0 = some (SsaType.unsigned 64)
    ∧ c3Builder.type_of_value 1 = some (SsaType.unsigned 8)
    ∧ c3Builder.get_numeric_constant 1 = none
    ∧ operator_result_max_bit_size_to_truncate .shiftLeft 0 1 c3Builder = some 254
    ∧ some 254 ≠ some (64 + 2 ^ 8 - 1 : Nat) := by
  refine ⟨rfl, rfl, rfl, by decide, by decide⟩

/-- The four-block lowering the spec describes for array equality: the
current block allocates a 1-bit accumulator, stores true (constant 1) into
it and jumps to loop_start with index 0; loop_start (a fresh block with one
field-typed parameter i) compares i < length and conditionally branches to
loop_body or loop_end; loop_body reads both arrays at i, computes element
equality, ANDs it into the loaded accumulator, stores it back, increments i
by one and jumps back to loop_start; loop_end loads the accumulator and
negates it exactly when the original operator was NotEqual.  Constants
(true, 0, length, 1) are interned values, not instructions. -/
def array_equality_spec (s : Builder) (lhs rhs : ValueId) (operator : BinaryOpKind)
    (element_type : SsaType) (array_length : Nat) : Option (Builder × ValueId) :=
  let n := s.nextValue
  let b := s.nextBlock
  let c := s.currentBlock
  let negate := operator_requires_not operator
  some ({ nextValue := n + (if negate then 15 else 14)
          nextBlock := b + 3
          currentBlock := b + 2
          types := (if negate then [((n + 14 : Nat), SsaType.boolType)] else [])
            ++ [(n + 13, SsaType.boolType), (n + 12, SsaType.fieldType),
                (n + 11, SsaType.fieldType), (n + 10, SsaType.boolType),
                (n + 9, SsaType.boolType), (n + 8, SsaType.boolType),
                (n + 7, element_type), (n + 6, element_type),
                (n + 5, SsaType.boolType), (n + 4, SsaType.fieldType),
                (n + 3, SsaType.fieldType), (n + 2, SsaType.fieldType),
                (n + 1, SsaType.boolType), (n, SsaType.reference)]
            ++ s.types
          consts := [(n + 11, 1), (n + 4, array_length), (n + 2, 0), (n + 1, 1)]
            ++ s.consts
          trace := s.trace ++
            [Event.instr c n .allocate,
             Event.store c n (n + 1),
             Event.jmp c b [n + 2],
             Event.param b (n + 3) SsaType.fieldType,
             Event.instr b (n + 5) (.binary (n + 3) .lt (n + 4)),
             Event.jmpif b (n + 5) (b + 1) (b + 2),
             Event.instr (b + 1) (n + 6) (.arrayGet lhs (n + 3) element_type),
             Event.instr (b + 1) (n + 7) (.arrayGet rhs (n + 3) element_type),
             Event.instr (b + 1) (n + 8) (.binary (n + 6) .eq (n + 7)),
             Event.instr (b + 1) (n + 9) (.load n SsaType.boolType),
             Event.instr (b + 1) (n + 10) (.binary (n + 9) .bAnd (n + 8)),
             Event.store (b + 1) n (n + 10),
             Event.instr (b + 1) (n + 12) (.binary (n + 3) .add (n + 11)),
             Event.jmp (b + 1) b [n + 12],
             Event.instr (b + 2) (n + 13) (.load n SsaType.boolType)]
            ++ (if negate then [Event.instr (b + 2) (n + 14) (.notOp (n + 13))] else []) },
        if negate then n + 14 else n + 13)

/-- C4: for Equal or NotEqual on operands of a single-element-type array
type, insert_binary does not emit a scalar Eq instruction but expands, before
any swap/negate logic, into the four-block accumulator loop described by
array_equality_spec; the result value is the loop-end load of the
accumulator, negated exactly when the operator was NotEqual. -/
theorem C4_array_equality (s : Builder) (lhs rhs : ValueId) (operator : BinaryOpKind)
    (et : SsaType) (len : Nat)
    (hl : s.type_of_value lhs = some (SsaType.array [et] len))
    (hr : s.type_of_value rhs = some (SsaType.array [et] len))
    (hop : operator = .equal ∨ operator = .notEqual) :
    insert_binary s lhs operator rhs = array_equality_spec s lhs rhs operator et len := by
  have hl2 : assocLookup s.types lhs = some (SsaType.array [et] len) := hl
  have hr2 : assocLookup s.types rhs = some (SsaType.array [et] len) := hr
  rcases hop with h | h <;> subst h <;>
    simp +arith [insert_binary, insert_array_equality, array_equality_spec,
      convert_operator, SsaType.isArray, operator_requires_not, hl2, hr2,
      SsaType.beq_refl, Builder.insert_allocate, Builder.numeric_constant,
      Builder.field_constant, Builder.fresh, Builder.emit, Builder.insert_store,
      Builder.terminate_with_jmp, Builder.switch_to_block, Builder.add_block_parameter,
      Builder.insert_binary_prim, Builder.terminate_with_jmpif, Builder.insert_array_get,
      Builder.insert_load, Builder.insert_not, Builder.insert_block, binaryResultType,
      Builder.type_of_value, assocLookup, List.append_assoc]

/-- A concrete builder holding two arrays of three u8 elements, ids 0, 1. -/
def c4Builder : Builder :=
  { nextValue := 2, nextBlock := 5, currentBlock := 0,
    types := [(0, SsaType.array [SsaType.unsigned 8] 3),
              (1, SsaType.array [SsaType.unsigned 8] 3)],
    consts := [], trace := [] }

theorem C4_array_equality_witness :
    c4Builder.type_of_value 0 = some (SsaType.array [SsaType.unsigned 8] 3)
    ∧ c4Builder.type_of_value 1 = some (SsaType.array [SsaType.unsigned 8] 3)
    ∧ insert_binary c4Builder 0 .notEqual 1 =
        array_equality_spec c4Builder 0 1 .notEqual (SsaType.unsigned 8) 3 :=
  ⟨rfl, rfl,
   C4_array_equality c4Builder 0 1 .notEqual (SsaType.unsigned 8) 3 rfl rfl
     (by decide)⟩

theorem C3_shift_unknown_amount_witness :
    c3Builder.type_of_value 0 = some (SsaType.unsigned 64)
    ∧ c3Builder.type_of_value 1 = some (SsaType.unsigned 8)
    ∧ get_bit_size (SsaType.unsigned 64) = some 64
    ∧ get_bit_size (SsaType.unsigned 8) = some 8
    ∧ c3Builder.get_numeric_constant 1 = none
    ∧ operator_result_max_bit_size_to_truncate .shiftLeft 0 1 c3Builder =
        some (if 2 ^ 8 ≥ 2 ^ 32 then field_max_num_bits
              else if 2 ^ 8 + 64 ≥ 2 ^ 32 then field_max_num_bits
              else min (2 ^ 8 + 64 - 1) field_max_num_bits) :=
  ⟨rfl, rfl, rfl, rfl, rfl,
   C3_shift_unknown_amount c3Builder 0 1 (SsaType.unsigned 64)
     (SsaType.unsigned 8) 64 8 rfl rfl rfl rfl rfl⟩


/-- C5 as frozen is false: try_map_type (one of the three flattening entry
points) does not desugar a formatted string to the (String, Field, captures)
triple; it routes it to convert_non_tuple_type, which is a fatal error
(modelled none), while the triple itself flattens fine. -/
theorem C5_counterexample :
    try_map_type (AstType.fmtString 3 .field)
        (fun t => (Except.ok t : Except Unit SsaType)) = none
    ∧ try_map_type (AstType.tuple [.string 3, .field, .field])
        (fun t => (Except.ok t : Except Unit SsaType)) =
        some (.ok (Tree.branch [Tree.leaf (SsaType.array [SsaType.charType] 3),
          Tree.leaf SsaType.fieldType, Tree.leaf SsaType.fieldType])) := by
  constructor
  · simp [try_map_type, try_map_type_helper, convert_non_tuple_type]
  · simp [try_map_type, try_map_type_helper, try_map_type_fields,
      convert_non_tuple_type, Tree.emptyTree]

/-- C5 (amended): map_type and convert_type flatten FormattedString(len,
captures) exactly as the 3-tuple (String(len), Field, captures); the third
entry point, try_map_type, lacks a FormattedString case and instead reaches
convert_non_tuple_type, which aborts fatally on it, for every leaf
function. -/
theorem C5_fmtstring_flattening {T E : Type} :
    (∀ (f : SsaType → T) (len : Nat) (captures : AstType),
      map_type (AstType.fmtString len captures) f =
        map_type (AstType.tuple [.string len, .field, captures]) f)
    ∧ (∀ (len : Nat) (captures : AstType),
      convert_type (AstType.fmtString len captures) =
        convert_type (AstType.tuple [.string len, .field, captures]))
    ∧ (∀ (f : SsaType → Except E T) (len : Nat) (captures : AstType),
      try_map_type (AstType.fmtString len captures) f = none) := by
  refine ⟨?_, ?_, ?_⟩
  · intro f len captures
    unfold map_type
    conv_lhs => rw [map_type_helper]
  · intro len captures
    unfold convert_type
    conv_lhs => rw [map_type_helper]
  · intro f len captures
    simp [try_map_type, try_map_type_helper, convert_non_tuple_type]

/-- Modelled from the spec (ssa_gen/value.rs is not among the provided
sources): a leaf of a Value Tree is either an ordinary IR value or a mutable
indirection marker recording the allocation and the element type stored in
it. -/
inductive Value where
  | normal (value : ValueId)
  | mutable (reference : ValueId) (typ : SsaType)
deriving Repr

/-- value.rs Values: a Value Tree of leaf values. -/
abbrev Values := Tree Value

/-- Modelled from the spec: Value::eval — an ordinary value evaluates to
itself, a mutable binding reads through its allocation with a load. -/
def Value.eval (v : Value) (s : Builder) : Option (Builder × ValueId) :=
  match v with
  | .normal value => some (s, value)
  | .mutable reference typ => s.insert_load reference typ

/-- Modelled from the spec: Value::eval_reference — the store target of a
leaf: a mutable binding is its allocation. -/
def Value.eval_reference : Value → ValueId
  | .normal value => value
  | .mutable reference _ => reference

/-- context.rs LValue: the recorded path produced by extract_current_value
and consumed by assign_new_value. -/
inductive LValue where
  | ident (references : Values)
  | index (old_array : ValueId) (idx : ValueId) (array_lvalue : LValue)
  | memberAccess (old_object : Values) (idx : Nat) (object_lvalue : LValue)
  | dereference (reference : Values)

/-- context.rs element_size: the length of the flattened
element-type list of the array type, i.e. the number of flattened leaves per array element
(panics, modelled none, on a non-array non-slice type). -/
def element_size (s : Builder) (array : ValueId) : Option Nat :=
  match s.type_of_value array with
  | some (.array elements _) => some elements.length
  | some (.slice elements) => some elements.length
  | _ => none

/-- context.rs replace_field: substitute the field at the given position
within a tuple tree (panics, modelled none, on a leaf or an out-of-range
position). -/
def replace_field (tuple : Values) (field_index : Nat) (new_value : Values) :
    Option Values :=
  match tuple with
  | .branch trees =>
      if field_index < trees.length then
        some (.branch (trees.set field_index new_value))
      else none
  | .leaf _ => none

mutual

/-- context.rs assign: given an lhs tree of references, store each leaf of
rhs into the corresponding leaf of lhs; a shape mismatch is a fatal fault
(modelled none). -/
def assign (s : Builder) : Values → Values → Option Builder
  | .branch lhs_branches, .branch rhs_branches =>
      assignList s lhs_branches rhs_branches
  | .leaf lhs, .leaf rhs => do
      let target := lhs.eval_reference
      let (s, value) ← rhs.eval s
      s.insert_store target value
  | _, _ => none

/-- The zipped iteration inside assign (with the assert_eq on lengths). -/
def assignList (s : Builder) : List Values → List Values → Option Builder
  | [], [] => some s
  | l :: ls, r :: rs => do
      let s ← assign s l r
      assignList s ls rs
  | _, _ => none

end

mutual

/-- The try_for_each closure in the Index arm of assign_new_value: for each
leaf of the new value in order, evaluate it, emit an array-set of it at the
current index into the current array value, and emit an increment of the
index by the precomputed constant one. -/
def index_set_leaves (one : ValueId) (s : Builder) (arr idx : ValueId) :
    Values → Option (Builder × ValueId × ValueId)
  | .leaf v => do
      let (s, value) ← v.eval s
      let (s, arr2) ← s.insert_array_set arr idx value
      let (s, idx2) ← s.insert_binary_prim idx .add one
      some (s, arr2, idx2)
  | .branch ts => index_set_leaves_list one s arr idx ts

/-- The list part of the try_for_each traversal. -/
def index_set_leaves_list (one : ValueId) (s : Builder) (arr idx : ValueId) :
    List Values → Option (Builder × ValueId × ValueId)
  | [] => some (s, arr, idx)
  | t :: ts => do
      let (s, arr2, idx2) ← index_set_leaves one s arr idx t
      index_set_leaves_list one s arr2 idx2 ts

end

/-- context.rs assign_new_value: installs a new value along a recorded
LValue path.  Ident and Dereference store through the recorded references;
MemberAccess substitutes the field and recurses outward; Index computes the
flat base offset as the evaluated index times the element leaf count, emits
one array-set per leaf of the new value (incrementing the offset by one
after each), and recurses outward with the final array value as the new
value for the enclosing sub-path. -/
def assign_new_value (s : Builder) (lvalue : LValue) (new_value : Values) :
    Option Builder :=
  match lvalue with
  | .ident references => assign s references new_value
  | .index old_array idx array_lvalue => do
      let es ← element_size s old_array
      let (s, element_size_c) := s.field_constant es
      let (s, offset) ← s.insert_binary_prim idx .mul element_size_c
      let (s, one) := s.field_constant 1
      let (s, arr, _) ← index_set_leaves one s old_array offset new_value
      assign_new_value s array_lvalue (Tree.leaf (Value.normal arr))
  | .memberAccess old_object fieldIndex object_lvalue => do
      let new_object ← replace_field old_object fieldIndex new_value
      assign_new_value s object_lvalue new_object
  | .dereference reference => assign s reference new_value

/-- The per-leaf write sequence the spec describes for an indexed assignment:
for each leaf value in order, evaluate it, emit an array-set of it at the
current flat offset into the current array value, and increment the offset
by one (via the precomputed constant one); returns the final array value and
offset. -/
def write_leaves (one : ValueId) (s : Builder) (arr offset : ValueId) :
    List Value → Option (Builder × ValueId × ValueId)
  | [] => some (s, arr, offset)
  | v :: vs => do
      let (s, value) ← v.eval s
      let (s, arr2) ← s.insert_array_set arr offset value
      let (s, offset2) ← s.insert_binary_prim offset .add one
      write_leaves one s arr2 offset2 vs

/-- The indexed-write lowering the spec describes, phrased over the flat
leaf list of the new value: the flat base offset is the evaluated index
multiplied by the number of flattened leaves per array element; then one
array-set is emitted per leaf, in leaf order, the offset incremented by one
after each; the result is the final array value. -/
def indexed_write_spec (s : Builder) (old_array idx : ValueId)
    (leaves_per_element : Nat) (leaves : List Value) :
    Option (Builder × ValueId) := do
  let (s, element_size_c) := s.field_constant leaves_per_element
  let (s, offset) ← s.insert_binary_prim idx .mul element_size_c
  let (s, one) := s.field_constant 1
  let (s, arr, _) ← write_leaves one s old_array offset leaves
  some (s, arr)

/-- write_leaves splits over list append. -/
theorem write_leaves_append (one : ValueId) (xs ys : List Value) :
    ∀ (s : Builder) (arr offset : ValueId),
    write_leaves one s arr offset (xs ++ ys) =
      (write_leaves one s arr offset xs).bind
        (fun p => write_leaves one p.1 p.2.1 p.2.2 ys) := by
  induction xs with
  | nil => intro s arr offset; simp [write_leaves]
  | cons v vs ih =>
      intro s arr offset
      simp only [List.cons_append, write_leaves, Option.bind_eq_bind]
      cases hv : v.eval s with
      | none => simp
      | some p =>
          obtain ⟨s1, value⟩ := p
          simp only [Option.some_bind]
          cases hset : s1.insert_array_set arr offset value with
          | none => simp
          | some q =>
              obtain ⟨s2, arr2⟩ := q
              simp only [Option.some_bind]
              cases hadd : s2.insert_binary_prim offset .add one with
              | none => simp
              | some r =>
                  obtain ⟨s3, offset2⟩ := r
                  simp only [Option.some_bind]
                  exact ih s3 arr2 offset2

mutual

/-- The tree traversal of the Index arm equals the spec-side traversal of
the flat leaf list. -/
theorem index_set_leaves_eq_spec (one : ValueId) :
    ∀ (s : Builder) (arr idx : ValueId) (t : Values),
    index_set_leaves one s arr idx t = write_leaves one s arr idx t.flatten
  | s, arr, idx, .leaf v => by
      rw [index_set_leaves, Tree.flatten, write_leaves]
      simp [write_leaves]
  | s, arr, idx, .branch ts => by
      rw [index_set_leaves, Tree.flatten]
      exact index_set_leaves_list_eq_spec one s arr idx ts

/-- List version of index_set_leaves_eq_spec. -/
theorem index_set_leaves_list_eq_spec (one : ValueId) :
    ∀ (s : Builder) (arr idx : ValueId) (ts : List Values),
    index_set_leaves_list one s arr idx ts =
      write_leaves one s arr idx (Tree.flattenList ts)
  | s, arr, idx, [] => by
      rw [index_set_leaves_list, Tree.flattenList, write_leaves]
  | s, arr, idx, t :: ts => by
      rw [index_set_leaves_list, Tree.flattenList, write_leaves_append,
        index_set_leaves_eq_spec one s arr idx t]
      cases h : write_leaves one s arr idx t.flatten with
      | none => simp
      | some p =>
          simp only [Option.bind_eq_bind, Option.some_bind]
          exact index_set_leaves_list_eq_spec one p.1 p.2.1 p.2.2 ts

end

/-- C6: reassigning through an LValue::Index emits the flat base offset as
the evaluated index times the number of flattened leaves per array element
(the length of the flattened element-type list of the array type), then one
array-set per leaf of the new value in leaf order, incrementing the offset
by exactly one after each set, and passes the final array value outward as
the new value for the enclosing sub-path. -/
theorem C6_indexed_assignment (s : Builder) (old_array idx : ValueId)
    (sub : LValue) (new_value : Values) (elementTypes : List SsaType) (len : Nat)
    (h : s.type_of_value old_array = some (SsaType.array elementTypes len)) :
    assign_new_value s (.index old_array idx sub) new_value =
      (indexed_write_spec s old_array idx elementTypes.length
          new_value.flatten).bind
        (fun p => assign_new_value p.1 sub (Tree.leaf (Value.normal p.2))) := by
  simp [assign_new_value, element_size, h, indexed_write_spec,
    index_set_leaves_eq_spec, Option.bind_assoc]

/-- A concrete builder for the indexed-assignment witness: value 0 is an
array of three two-leaf elements, value 1 a field index, value 2 a
reference. -/
def c6Builder : Builder :=
  { nextValue := 3, nextBlock := 0, currentBlock := 0,
    types := [(0, SsaType.array [SsaType.unsigned 8, SsaType.unsigned 8] 3),
              (1, SsaType.fieldType), (2, SsaType.reference)],
    consts := [], trace := [] }

theorem C6_indexed_assignment_witness :
    c6Builder.type_of_value 0 =
        some (SsaType.array [SsaType.unsigned 8, SsaType.unsigned 8] 3)
    ∧ assign_new_value c6Builder
        (.index 0 1 (.ident (Tree.leaf (Value.mutable 2
          (SsaType.array [SsaType.unsigned 8, SsaType.unsigned 8] 3)))))
        (Tree.branch [Tree.leaf (Value.normal 1), Tree.leaf (Value.normal 1)]) =
      (indexed_write_spec c6Builder 0 1
          [SsaType.unsigned 8, SsaType.unsigned 8].length
          (Tree.branch [Tree.leaf (Value.normal 1),
            Tree.leaf (Value.normal 1)]).flatten).bind
        (fun p => assign_new_value p.1
          (.ident (Tree.leaf (Value.mutable 2
            (SsaType.array [SsaType.unsigned 8, SsaType.unsigned 8] 3))))
          (Tree.leaf (Value.normal p.2))) :=
  ⟨rfl,
   C6_indexed_assignment c6Builder 0 1
     (.ident (Tree.leaf (Value.mutable 2
       (SsaType.array [SsaType.unsigned 8, SsaType.unsigned 8] 3))))
     (Tree.branch [Tree.leaf (Value.normal 1), Tree.leaf (Value.normal 1)])
     [SsaType.unsigned 8, SsaType.unsigned 8] 3 rfl⟩

/-- context.rs SharedContext, restricted to its mutable state: the map from
surface function ids to IR function ids (behind a RwLock in the source), the
pending compilation queue (behind a Mutex), and the function-id counter (an
atomic counter).  The read-only program is elided. -/
structure SharedContext where
  functions : List (FuncId × IrFunctionId)
  function_queue : List (FuncId × IrFunctionId)
  function_counter : Nat
deriving Repr

/-- The map lookup performed under the read lock. -/
def SharedContext.lookup_function (ctx : SharedContext) (id : FuncId) :
    Option IrFunctionId :=
  assocLookup ctx.functions id

/-- context.rs SharedContext::get_or_queue_function (single-threaded
semantics): return the known IR id if the map has one; otherwise take the
next counter value, push (id, next_id) onto the queue, insert the mapping,
and return the new id. -/
def get_or_queue_function (ctx : SharedContext) (id : FuncId) :
    SharedContext × IrFunctionId :=
  match ctx.lookup_function id with
  | some existing_id => (ctx, existing_id)
  | none =>
      let next_id := ctx.function_counter
      ({ functions := (id, next_id) :: ctx.functions
         function_queue := ctx.function_queue ++ [(id, next_id)]
         function_counter := next_id + 1 }, next_id)

/-- C7: get_or_queue_function is idempotent on an already-assigned surface
function id (same id returned, map and queue untouched); on an unseen id it
allocates the counter value — distinct from every previously assigned id,
given the invariant that assigned ids are below the counter — records the
mapping, appends the pair to the queue exactly once, and returns the new
id. -/
theorem C7_get_or_queue (ctx : SharedContext) (id : FuncId)
    (hinv : ∀ p ∈ ctx.functions, p.2 < ctx.function_counter) :
    (∀ e, ctx.lookup_function id = some e → get_or_queue_function ctx id = (ctx, e))
    ∧ (ctx.lookup_function id = none →
        get_or_queue_function ctx id =
          ({ functions := (id, ctx.function_counter) :: ctx.functions
             function_queue := ctx.function_queue ++ [(id, ctx.function_counter)]
             function_counter := ctx.function_counter + 1 }, ctx.function_counter)
        ∧ (∀ p ∈ ctx.functions, p.2 ≠ ctx.function_counter)
        ∧ SharedContext.lookup_function
            (get_or_queue_function ctx id).1 id = some ctx.function_counter) := by
  constructor
  · intro e he
    simp [get_or_queue_function, he]
  · intro hnone
    refine ⟨by simp [get_or_queue_function, hnone], ?_, ?_⟩
    · intro p hp
      exact (hinv p hp).ne
    · have hnone2 : assocLookup ctx.functions id = none := hnone
      simp [get_or_queue_function, hnone, hnone2, SharedContext.lookup_function,
        assocLookup]

/-- A concrete shared context: function 5 already assigned IR id 0, counter
at 1. -/
def c7Shared : SharedContext :=
  { functions := [(5, 0)], function_queue := [], function_counter := 1 }

theorem C7_get_or_queue_witness :
    (∀ p ∈ c7Shared.functions, p.2 < c7Shared.function_counter)
    ∧ ((∀ e, c7Shared.lookup_function 7 = some e →
          get_or_queue_function c7Shared 7 = (c7Shared, e))
       ∧ (c7Shared.lookup_function 7 = none →
           get_or_queue_function c7Shared 7 =
             ({ functions := (7, c7Shared.function_counter) :: c7Shared.functions
                function_queue := c7Shared.function_queue ++
                  [(7, c7Shared.function_counter)]
                function_counter := c7Shared.function_counter + 1 },
              c7Shared.function_counter)
           ∧ (∀ p ∈ c7Shared.functions, p.2 ≠ c7Shared.function_counter)
           ∧ SharedContext.lookup_function
               (get_or_queue_function c7Shared 7).1 7 =
               some c7Shared.function_counter)) :=
  ⟨by decide, C7_get_or_queue c7Shared 7 (by decide)⟩

/-- The program counter of one thread executing get_or_queue_function,
decomposed into the atomic steps the synchronization of the source actually
provides: the read-locked map check, the atomic counter increment, the
queue-locked push, and the write-locked map insert.  The read lock is
released before the later steps run (the source ends the read-lock block
before functions.write is acquired), so the check and the insert are
separate critical sections. -/
inductive Pc where
  | readCheck
  | allocId
  | pushQueue
  | writeMap
  | halted
deriving DecidableEq, Repr

/-- Thread-local state: program counter, allocated id (meaningful after
allocId), and the returned IR id once finished. -/
structure ThreadState where
  pc : Pc
  myId : Nat
  ret : Option IrFunctionId
deriving Repr

/-- One atomic step of get_or_queue_function by a thread calling it with
function id fid, against the shared state. -/
def threadStep (fid : FuncId) (shared : SharedContext) (t : ThreadState) :
    SharedContext × ThreadState :=
  match t.pc with
  | .readCheck =>
      match assocLookup shared.functions fid with
      | some existing => (shared, { t with pc := .halted, ret := some existing })
      | none => (shared, { t with pc := .allocId })
  | .allocId =>
      ({ shared with function_counter := shared.function_counter + 1 },
       { t with pc := .pushQueue, myId := shared.function_counter })
  | .pushQueue =>
      ({ shared with function_queue := shared.function_queue ++ [(fid, t.myId)] },
       { t with pc := .writeMap })
  | .writeMap =>
      ({ shared with functions := (fid, t.myId) :: shared.functions },
       { t with pc := .halted, ret := some t.myId })
  | .halted => (shared, t)

/-- Running the four steps of one thread back to back (no interleaving)
agrees with the sequential get_or_queue_function, for every shared state:
the atomic-step decomposition refines the source function. -/
theorem threadStep_sequential (shared : SharedContext) (fid : FuncId) :
    (let (s1, t1) := threadStep fid shared ⟨.readCheck, 0, none⟩
     let (s2, t2) := threadStep fid s1 t1
     let (s3, t3) := threadStep fid s2 t2
     let (s4, t4) := threadStep fid s3 t3
     (s4, t4.ret)) =
      ((get_or_queue_function shared fid).1,
       some (get_or_queue_function shared fid).2) := by
  cases h : assocLookup shared.functions fid <;>
    simp [threadStep, get_or_queue_function, SharedContext.lookup_function, h]

/-- Run a schedule over two threads both calling get_or_queue_function with
the same function id fid: false steps thread 1, true steps thread 2. -/
def runSchedule (fid : FuncId) :
    List Bool → SharedContext × ThreadState × ThreadState →
    SharedContext × ThreadState × ThreadState
  | [], st => st
  | b :: rest, (shared, t1, t2) =>
      if b then
        let (shared2, t2b) := threadStep fid shared t2
        runSchedule fid rest (shared2, t1, t2b)
      else
        let (shared2, t1b) := threadStep fid shared t1
        runSchedule fid rest (shared2, t1b, t2)

/-- C8 exhibit: the interleaving in which both threads pass the read-locked
check before either inserts.  Both threads call get_or_queue_function with
the unseen function id 0 from the empty shared state; thread 1 runs its
read check, then thread 2 runs its read check (also a miss, since nothing
is inserted yet), then each finishes.  Thread 1 returns IR id 0, thread 2
returns IR id 1, and the queue holds function 0 twice — contradicting the
claimed race freedom. -/
theorem C8_race_counterexample :
    runSchedule 0 [false, true, false, false, false, true, true, true]
        (⟨[], [], 0⟩, ⟨.readCheck, 0, none⟩, ⟨.readCheck, 0, none⟩) =
      (⟨[(0, 1), (0, 0)], [(0, 0), (0, 1)], 2⟩,
       ⟨.halted, 0, some 0⟩, ⟨.halted, 1, some 1⟩)
    ∧ some (0 : IrFunctionId) ≠ some (1 : IrFunctionId)
    ∧ (List.filter (fun p => p.1 = 0)
        ([(0, 0), (0, 1)] : List (FuncId × IrFunctionId))).length = 2 :=
  ⟨rfl, by decide, by decide⟩

/-- context.rs FunctionContext::define: insert a binding for a local
variable id; a pre-existing binding is a fatal internal fault (the source
inserts, then asserts the previous entry was absent). -/
def define (definitions : List (LocalId × Values)) (id : LocalId)
    (value : Values) : Option (List (LocalId × Values)) :=
  match assocLookup definitions id with
  | some _ => none
  | none => some ((id, value) :: definitions)

/-- context.rs FunctionContext::lookup: the stored Value Tree of a local
variable id; an undefined id is a fatal fault (expect), modelled none. -/
def lookup (definitions : List (LocalId × Values)) (id : LocalId) :
    Option Values :=
  assocLookup definitions id

/-- C9: a second define on an already-bound local id fails fatally, and
after a single define of v, lookup returns exactly the stored tree v. -/
theorem C9_define_twice_lookup (defs defs2 : List (LocalId × Values))
    (id : LocalId) (v w : Values) (h : define defs id v = some defs2) :
    define defs2 id w = none ∧ lookup defs2 id = some v := by
  unfold define at h
  cases hl : assocLookup defs id with
  | some u => rw [hl] at h; exact absurd h (by simp)
  | none =>
      rw [hl] at h
      obtain rfl : ((id, v) :: defs) = defs2 := by
        simpa using h
      constructor
      · simp [define, assocLookup]
      · simp [lookup, assocLookup]

theorem C9_define_twice_lookup_witness :
    define [] 3 (Tree.leaf (Value.normal 5)) =
      some [(3, Tree.leaf (Value.normal 5))]
    ∧ (define [(3, Tree.leaf (Value.normal 5))] 3 (Tree.leaf (Value.normal 6)) = none
       ∧ lookup [(3, Tree.leaf (Value.normal 5))] 3 =
           some (Tree.leaf (Value.normal 5))) :=
  ⟨rfl, C9_define_twice_lookup [] [(3, Tree.leaf (Value.normal 5))] 3
    (Tree.leaf (Value.normal 5)) (Tree.leaf (Value.normal 6)) rfl⟩

/-- C10: lookup has no recoverable failure path: for every definitions map
and id, either the id was never stored and lookup aborts fatally (none — the
modelled panic), or lookup returns a previously stored Value Tree. -/
theorem C10_lookup_aborts_or_returns_stored
    (defs : List (LocalId × Values)) (id : LocalId) :
    (lookup defs id = none ∧ ∀ v, (id, v) ∉ defs)
    ∨ (∃ v, lookup defs id = some v ∧ (id, v) ∈ defs) := by
  induction defs with
  | nil =>
      left
      exact ⟨rfl, by intro v h; simp at h⟩
  | cons p rest ih =>
      obtain ⟨w, t⟩ := p
      by_cases hw : w = id
      · subst hw
        right
        exact ⟨t, by simp [lookup, assocLookup], by simp⟩
      · rcases ih with ⟨h1, h2⟩ | ⟨v, h1, h2⟩
        · left
          refine ⟨?_, ?_⟩
          · simpa [lookup, assocLookup, hw] using h1
          · intro v hv
            rcases List.mem_cons.mp hv with heq | hmem
            · exact hw (by injection heq with h1x h2x; exact h1x.symm)
            · exact h2 v hmem
        · right
          refine ⟨v, ?_, List.mem_cons_of_mem _ h2⟩
          simpa [lookup, assocLookup, hw] using h1

end NoirSsaGen
